import Mathlib

/-!
Verification development for the tv_viewer media server
(src/tv_viewer/app.py), a Flask application serving a local media
library.  The data model and handlers below are a shallow embedding of
the Python source: paths are modelled as lists of segments, the
filesystem as an association list from absolute segment paths to file
contents (byte lists), and the transcode generator as the trace of
process actions it performs.
-/

namespace TvViewer

/-- Filesystem model: a map from absolute paths (segment lists) to the
byte contents of the regular file stored there.  A path absent from the
list models `os.path.exists(p) and os.path.isfile(p)` being false. -/
abbrev Fs := List (List String × List Nat)

/-- `BASE_DIR = "D:\\TV"` from app.py line 7. -/
def BASE_DIR : String := "D:\\TV"

/-- The segments of `BASE_DIR`: the drive root followed by the library
folder. -/
def baseSegs : List String := ["D:", "TV"]

/-- Split a list of characters at every slash, accumulating the current
segment in reverse. -/
def splitAux (cur : List Char) : List Char → List (List Char)
  | [] => [cur.reverse]
  | ch :: rest =>
    if ch = '/' then cur.reverse :: splitAux [] rest
    else splitAux (ch :: cur) rest

/-- Split a request path string on slashes into its segments, as Flask
delivers a `<path:...>` parameter. -/
def splitSlash (s : String) : List String :=
  (splitAux [] s.data).map fun l => String.mk l

/-- Normalisation of a segment path as the operating system performs it
when the joined path is opened: a `..` segment removes the previous
segment, `.` and empty segments are dropped.  `acc` holds the already
processed segments in reverse. -/
def normAux (acc : List String) : List String → List String
  | [] => acc.reverse
  | s :: rest =>
    if s = ".." then normAux acc.tail rest
    else if s = "." ∨ s = "" then normAux acc rest
    else normAux (s :: acc) rest

/-- Resolve a segment path to its normal form. -/
def resolveSegs (segs : List String) : List String := normAux [] segs

/-- `os.path.join(BASE_DIR, sub)` followed by operating-system path
normalisation: the location the handlers actually read from. -/
def resolvePath (sub : String) : List String :=
  resolveSegs (baseSegs ++ splitSlash sub)

/-- A resolved location lies strictly inside the library root. -/
def insideRoot (p : List String) : Bool :=
  baseSegs.isPrefixOf p && p != baseSegs

/-- The parts of an HTTP response the claims talk about. -/
structure Response where
  status : Nat
  body : List Nat
  contentType : Option String
  contentLength : Option Nat
  contentRange : Option (Nat × Nat × Nat)
  acceptRanges : Bool
deriving DecidableEq

/-- The plain 404 response the handlers return for a missing file. -/
def err404 : Response :=
  { status := 404, body := [], contentType := none, contentLength := none,
    contentRange := none, acceptRanges := false }

/-- Modelled from the spec: the byte-range file serving performed by
flask send_file / werkzeug is library code not under src.  Per the spec,
with no Range header the full file is returned with 200 and its
Content-Length; with `Range: bytes=N-M` a 206 with the requested span
and a Content-Range header; a range outside the file length yields 416
with no body. -/
def serveRange (content : List Nat) (range : Option (Nat × Nat)) : Response :=
  match range with
  | none =>
    { status := 200, body := content, contentType := some "video/mp4",
      contentLength := some content.length, contentRange := none,
      acceptRanges := true }
  | some (n, m) =>
    if content.length ≤ n then
      { status := 416, body := [], contentType := some "video/mp4",
        contentLength := none, contentRange := none, acceptRanges := true }
    else
      let e := min m (content.length - 1)
      { status := 206, body := (content.drop n).take (e - n + 1),
        contentType := some "video/mp4",
        contentLength := some ((content.drop n).take (e - n + 1)).length,
        contentRange := some (n, e, content.length), acceptRanges := true }

/-- The `/video/<path:filepath>` handler (app.py lines 68-75): join the
request path onto `BASE_DIR`, 404 when the result is not an existing
regular file, otherwise serve the file bytes with range support. -/
def video (fs : Fs) (filepath : String) (range : Option (Nat × Nat)) : Response :=
  match fs.lookup (resolvePath filepath) with
  | none => err404
  | some content => serveRange content range

/-- Suffix test on strings, as `str.endswith` in Python. -/
def strEndsWith (s t : String) : Bool := t.data.isSuffixOf s.data

/-- The `/thumb/<path:thumbpath>` handler (app.py lines 100-117): the
request path must literally end in `/index.jpg`; then the joined path is
served if it exists, else 404; any other request path gets 404 with an
empty body. -/
def thumb (fs : Fs) (thumbpath : String) : Response :=
  if strEndsWith thumbpath "/index.jpg" then
    match fs.lookup (resolvePath thumbpath) with
    | none => err404
    | some img =>
      { status := 200, body := img, contentType := some "image/jpeg",
        contentLength := none, contentRange := none, acceptRanges := false }
  else err404

/-- The ffmpeg command list built in `generate` (app.py lines 84-87):
every element is a fixed constant except the input path, which is the
resolved source file. -/
def ffmpegCommand (fullPath : String) : List String :=
  ["C:\\ffmpeg-2025-11-17-git-e94439e49b-full_build\\bin\\ffmpeg.exe",
   "-i", fullPath, "-c:v", "libx264", "-c:a", "aac",
   "-preset", "ultrafast", "-b:v", "500k", "-b:a", "96k",
   "-f", "mp4", "-movflags", "frag_keyframe", "-"]

/-- The constant part of the ffmpeg command before the input path. -/
def cmdBefore : List String :=
  ["C:\\ffmpeg-2025-11-17-git-e94439e49b-full_build\\bin\\ffmpeg.exe", "-i"]

/-- The constant part of the ffmpeg command after the input path. -/
def cmdAfter : List String :=
  ["-c:v", "libx264", "-c:a", "aac", "-preset", "ultrafast",
   "-b:v", "500k", "-b:a", "96k", "-f", "mp4",
   "-movflags", "frag_keyframe", "-"]

/-- The `subprocess.Popen` call of `generate` (app.py line 88): the
command list, with both stdout and stderr opened as pipes. -/
structure PopenCall where
  command : List String
  stdoutPipe : Bool
  stderrPipe : Bool
deriving DecidableEq

/-- The process spawn performed by `generate` for a given source path. -/
def streamPopen (fullPath : String) : PopenCall :=
  { command := ffmpegCommand fullPath, stdoutPipe := true, stderrPipe := true }

/-- The observable actions of the `generate` generator: spawning the
encoder, reading `n` bytes from its stdout pipe, reading from its stderr
pipe, yielding a chunk into the response body, and terminating the
process. -/
inductive Action where
  | spawn
  | readStdout (n : Nat)
  | readStderr
  | yieldChunk (c : List Nat)
  | terminate
deriving DecidableEq

/-- How a run of the generator ends: the encoder output reaches EOF, the
client disconnects (GeneratorExit is raised at the k-th yield), or an
internal error occurs at the k-th iteration. -/
inductive StreamEvent where
  | runToEof
  | disconnectAt (k : Nat)
  | errorAt (k : Nat)
deriving DecidableEq

/-- The chunk sequence produced by repeatedly calling
`proc.stdout.read(size)` on a pipe whose total output is `data`: each
read returns the next `size` bytes, the last read of a non-empty
remainder may be shorter, and reading an exhausted pipe returns the
empty string. -/
def readChunks (size : Nat) (data : List Nat) : List (List Nat) :=
  if h : size = 0 ∨ data = [] then []
  else data.take size :: readChunks size (data.drop size)
termination_by data.length
decreasing_by
  rw [not_or] at h
  rw [List.length_drop]
  exact Nat.sub_lt (List.length_pos.mpr h.2) (Nat.pos_of_ne_zero h.1)

/-- The read/yield actions of the generator loop when it runs to EOF:
one stdout read per chunk, each immediately yielded, and a final read
that returns empty and breaks the loop. -/
def ioEof : List (List Nat) → List Action
  | [] => [Action.readStdout 0]
  | c :: cs => Action.readStdout c.length :: Action.yieldChunk c :: ioEof cs

/-- The read/yield actions of the generator loop when it is interrupted
at iteration `k` (client disconnect or internal error); if the output is
exhausted first the loop ends by its normal empty read. -/
def ioCut : Nat → List (List Nat) → List Action
  | _, [] => [Action.readStdout 0]
  | 0, _ :: _ => []
  | k + 1, c :: cs => Action.readStdout c.length :: Action.yieldChunk c :: ioCut k cs

/-- The loop actions of the generator for a given chunk list and ending
event. -/
def loopActions (chs : List (List Nat)) : StreamEvent → List Action
  | StreamEvent.runToEof => ioEof chs
  | StreamEvent.disconnectAt k => ioCut k chs
  | StreamEvent.errorAt k => ioCut k chs

/-- The full action trace of one run of `generate` (app.py lines 83-96):
`Popen`, then the read/yield loop in 1 MiB chunks inside `try`, then the
`finally` clause `proc.terminate()`, which Python runs on every exit
from the loop — normal break, GeneratorExit on client disconnect, and
internal error alike.  `data` is the total stdout output of the encoder
during the run. -/
def generate (data : List Nat) (ev : StreamEvent) : List Action :=
  Action.spawn :: loopActions (readChunks (1024 * 1024) data) ev
    ++ [Action.terminate]

/-- Whether an action is a process spawn. -/
def isSpawn : Action → Bool
  | Action.spawn => true
  | _ => false

/-- The chunk an action yields into the response body, if any. -/
def yieldAct : Action → Option (List Nat)
  | Action.yieldChunk c => some c
  | _ => none

/-- Number of processes spawned in a trace. -/
def spawnCount (t : List Action) : Nat := t.countP isSpawn

/-- The chunks yielded into the response body by a trace, in order. -/
def yieldsOf (t : List Action) : List (List Nat) := t.filterMap yieldAct

/-- The outcome of the `/stream/<path:filepath>` handler (app.py lines
77-98) as the claims observe it: the status and headers of the response,
and the action trace of the generator run (empty when no generator ever
runs). -/
structure StreamResult where
  status : Nat
  contentType : Option String
  acceptRanges : Bool
  trace : List Action
deriving DecidableEq

/-- The `/stream/<path:filepath>` handler: join the request path onto
`BASE_DIR`, 404 when the result is not an existing regular file —
before any process is spawned — otherwise respond 200 with content type
`video/mp4`, `Accept-Ranges: bytes`, and a body produced by `generate`.
`data` is the stdout output of the encoder, `ev` how the run ends. -/
def stream (fs : Fs) (filepath : String) (data : List Nat) (ev : StreamEvent) :
    StreamResult :=
  match fs.lookup (resolvePath filepath) with
  | none => { status := 404, contentType := none, acceptRanges := false, trace := [] }
  | some _ =>
    { status := 200, contentType := some "video/mp4", acceptRanges := true,
      trace := generate data ev }

/-- A filesystem holding a file directly under the drive root, next to
the library folder — outside the library root. -/
def fsEvil : Fs := [(["D:", "secret.txt"], [7, 7, 7])]

/-- A filesystem holding an `index.jpg` directly under the library
root. -/
def fsTop : Fs := [(["D:", "TV", "index.jpg"], [9, 9])]

/-- A filesystem holding one small video file inside the library. -/
def fsDemo : Fs := [(["D:", "TV", "a.mp4"], [0, 1, 2, 3, 4])]

/-! Helper lemmas. -/

/-- Joining the chunks read from the pipe recovers the whole output
(fuel-indexed auxiliary form). -/
theorem readChunks_join_aux (size : Nat) (hs : size ≠ 0) :
    ∀ (fuel : Nat) (data : List Nat), data.length ≤ fuel →
      (readChunks size data).flatten = data := by
  intro fuel
  induction fuel with
  | zero =>
    intro data h
    have hd : data = [] := List.eq_nil_of_length_eq_zero (Nat.le_zero.mp h)
    subst hd
    simp [readChunks]
  | succ n ih =>
    intro data h
    rw [readChunks]
    by_cases hd : data = []
    · simp [hd]
    · rw [dif_neg (by simp [hs, hd])]
      simp only [List.flatten_cons]
      rw [ih (data.drop size) (by rw [List.length_drop]; omega)]
      exact List.take_append_drop size data

/-- Joining the chunks read from the pipe recovers the whole output. -/
theorem readChunks_join (size : Nat) (hs : size ≠ 0) (data : List Nat) :
    (readChunks size data).flatten = data :=
  readChunks_join_aux size hs data.length data le_rfl

/-- Every chunk read from the pipe is non-empty and at most `size`
bytes (fuel-indexed auxiliary form). -/
theorem readChunks_mem_aux (size : Nat) (hs : size ≠ 0) :
    ∀ (fuel : Nat) (data : List Nat), data.length ≤ fuel →
      ∀ c ∈ readChunks size data, c.length ≤ size ∧ c ≠ [] := by
  intro fuel
  induction fuel with
  | zero =>
    intro data h c hc
    have hd : data = [] := List.eq_nil_of_length_eq_zero (Nat.le_zero.mp h)
    subst hd
    simp [readChunks] at hc
  | succ n ih =>
    intro data h c hc
    rw [readChunks] at hc
    by_cases hd : data = []
    · rw [dif_pos (Or.inr hd)] at hc
      simp at hc
    · rw [dif_neg (by simp [hs, hd])] at hc
      rcases List.mem_cons.mp hc with hc | hc
      · subst hc
        have hlen : 0 < data.length := List.length_pos.mpr hd
        constructor
        · rw [List.length_take]
          exact Nat.min_le_left _ _
        · intro hnil
          have hzero := congrArg List.length hnil
          rw [List.length_take] at hzero
          simp only [List.length_nil] at hzero
          omega
      · exact ih (data.drop size) (by rw [List.length_drop]; omega) c hc

/-- Every chunk read from the pipe is non-empty and at most `size`
bytes. -/
theorem readChunks_mem (size : Nat) (hs : size ≠ 0) (data : List Nat) :
    ∀ c ∈ readChunks size data, c.length ≤ size ∧ c ≠ [] :=
  readChunks_mem_aux size hs data.length data le_rfl

/-- Every action of the EOF loop body is a stdout read or a yield. -/
theorem ioEof_actions :
    ∀ (chs : List (List Nat)) (a : Action), a ∈ ioEof chs →
      isSpawn a = false ∧ a ≠ Action.readStderr := by
  intro chs
  induction chs with
  | nil =>
    intro a ha
    simp only [ioEof, List.mem_singleton] at ha
    subst ha
    exact ⟨rfl, by simp⟩
  | cons c cs ih =>
    intro a ha
    simp only [ioEof, List.mem_cons] at ha
    rcases ha with h | h | h
    · subst h; exact ⟨rfl, by simp⟩
    · subst h; exact ⟨rfl, by simp⟩
    · exact ih a h

/-- Every action of an interrupted loop body is a stdout read or a
yield. -/
theorem ioCut_actions :
    ∀ (k : Nat) (chs : List (List Nat)) (a : Action), a ∈ ioCut k chs →
      isSpawn a = false ∧ a ≠ Action.readStderr := by
  intro k chs
  induction chs generalizing k with
  | nil =>
    intro a ha
    cases k <;> simp only [ioCut, List.mem_singleton] at ha <;>
      (subst ha; exact ⟨rfl, by simp⟩)
  | cons c cs ih =>
    intro a ha
    cases k with
    | zero => simp [ioCut] at ha
    | succ k =>
      simp only [ioCut, List.mem_cons] at ha
      rcases ha with h | h | h
      · subst h; exact ⟨rfl, by simp⟩
      · subst h; exact ⟨rfl, by simp⟩
      · exact ih k a h

/-- Every action of the generator loop body, whatever the ending event,
is a stdout read or a yield: never a spawn, never a stderr read. -/
theorem loopActions_actions (chs : List (List Nat)) (ev : StreamEvent) :
    ∀ a ∈ loopActions chs ev, isSpawn a = false ∧ a ≠ Action.readStderr := by
  cases ev with
  | runToEof => exact ioEof_actions chs
  | disconnectAt k => exact ioCut_actions k chs
  | errorAt k => exact ioCut_actions k chs

/-- The EOF loop body yields exactly the chunk list, in order. -/
theorem yieldsOf_ioEof : ∀ chs : List (List Nat), yieldsOf (ioEof chs) = chs := by
  intro chs
  induction chs with
  | nil => rfl
  | cons c cs ih =>
    simp only [ioEof, yieldsOf, List.filterMap_cons, yieldAct] at *
    simp [ih]

/-- The EOF loop body ends with a stdout read that returns empty. -/
theorem ioEof_ends_empty_read :
    ∀ chs : List (List Nat), ∃ pre, ioEof chs = pre ++ [Action.readStdout 0] := by
  intro chs
  induction chs with
  | nil => exact ⟨[], rfl⟩
  | cons c cs ih =>
    obtain ⟨pre, hp⟩ := ih
    exact ⟨Action.readStdout c.length :: Action.yieldChunk c :: pre, by simp [ioEof, hp]⟩

/-! Claim theorems. -/

/-- Claim C1: the claim states that every request path served by the
routes resolves strictly inside `BASE_DIR` or fails.  The code joins the
request path onto `BASE_DIR` with no sanitisation of `..` segments, so a
request for `../secret.txt` resolves to a location outside the library
root, and when a file exists there the handler serves it with 200
instead of failing with Forbidden or NotFound. -/
theorem video_serves_outside_root :
    insideRoot (resolvePath "../secret.txt") = false
    ∧ (video fsEvil "../secret.txt" none).status = 200
    ∧ (video fsEvil "../secret.txt" none).body = [7, 7, 7] := by
  refine ⟨by decide, by decide, by decide⟩

/-- Claim C2: on every exit of the generator loop — normal end of
output, client disconnect, and internal error alike — the `finally`
clause runs `proc.terminate()`: every trace of `generate` begins with
the spawn and ends with the terminate action. -/
theorem generate_cleanup_on_every_exit (data : List Nat) (ev : StreamEvent) :
    (generate data ev).head? = some Action.spawn
    ∧ (generate data ev).getLast? = some Action.terminate
    ∧ ∃ pre, generate data ev = pre ++ [Action.terminate] := by
  refine ⟨rfl, ?_, ?_⟩
  · show (Action.spawn :: (loopActions (readChunks (1024 * 1024) data) ev
        ++ [Action.terminate])).getLast? = some Action.terminate
    rw [← List.cons_append, List.getLast?_concat]
  · exact ⟨Action.spawn :: loopActions (readChunks (1024 * 1024) data) ev, rfl⟩

/-- Claim C6: when the joined path is not an existing regular file, both
`/video` and `/stream` return 404, and the `/stream` handler spawns no
encoder process: its trace is empty, because the existence check comes
before the `Popen` call. -/
theorem missing_file_404_no_spawn (fs : Fs) (p : String) (r : Option (Nat × Nat))
    (data : List Nat) (ev : StreamEvent)
    (h : fs.lookup (resolvePath p) = none) :
    (video fs p r).status = 404
    ∧ (stream fs p data ev).status = 404
    ∧ (stream fs p data ev).trace = []
    ∧ spawnCount (stream fs p data ev).trace = 0 := by
  refine ⟨?_, ?_, ?_, ?_⟩ <;> simp [video, stream, h, err404, spawnCount]

/-- Witness for C6 at a concrete missing file on an empty filesystem. -/
theorem missing_file_404_no_spawn_witness :
    ([] : Fs).lookup (resolvePath "missing.mp4") = none
    ∧ (video [] "missing.mp4" none).status = 404
    ∧ (stream [] "missing.mp4" [] StreamEvent.runToEof).status = 404
    ∧ (stream [] "missing.mp4" [] StreamEvent.runToEof).trace = []
    ∧ spawnCount (stream [] "missing.mp4" [] StreamEvent.runToEof).trace = 0 :=
  ⟨by decide, missing_file_404_no_spawn [] "missing.mp4" none [] StreamEvent.runToEof (by decide)⟩

/-- Claim C7: the claim states that the stderr stream of the encoder is
drained during streaming.  The code opens stderr as a pipe
(`stderr=subprocess.PIPE`) but never reads from it: no trace of
`generate`, under any ending event, contains a stderr read, so the
encoder can block on a full stderr pipe buffer. -/
theorem stream_stderr_never_drained (p : String) (data : List Nat) (ev : StreamEvent) :
    (streamPopen p).stderrPipe = true
    ∧ Action.readStderr ∉ generate data ev := by
  refine ⟨rfl, ?_⟩
  intro hmem
  simp only [generate, List.cons_append, List.mem_cons, List.mem_append,
    List.mem_singleton] at hmem
  rcases hmem with h | h | h
  · exact absurd h (by decide)
  · exact (loopActions_actions _ ev Action.readStderr h).2 rfl
  · exact absurd h (by decide)

/-- Witness for C7 at a concrete path, output and ending event. -/
theorem stream_stderr_never_drained_witness :
    (streamPopen "D:\\TV\\a.mp4").stderrPipe = true
    ∧ Action.readStderr ∉ generate [1, 2, 3] StreamEvent.runToEof :=
  stream_stderr_never_drained "D:\\TV\\a.mp4" [1, 2, 3] StreamEvent.runToEof

/-- Claim C8: every `/stream` request spawns exactly one encoder
process, and the command is a fixed template — constant before and
after the input path — selecting H.264 video, AAC audio, fragmented
MP4 to standard output, with fixed preset and bitrates. -/
theorem stream_command_fixed (p : String) (data : List Nat) (ev : StreamEvent) :
    (streamPopen p).command = cmdBefore ++ p :: cmdAfter
    ∧ spawnCount (generate data ev) = 1
    ∧ "libx264" ∈ cmdAfter ∧ "aac" ∈ cmdAfter
    ∧ "ultrafast" ∈ cmdAfter ∧ "500k" ∈ cmdAfter ∧ "96k" ∈ cmdAfter
    ∧ "mp4" ∈ cmdAfter ∧ "frag_keyframe" ∈ cmdAfter
    ∧ cmdAfter.getLast? = some "-" := by
  refine ⟨rfl, ?_, by decide, by decide, by decide, by decide, by decide,
    by decide, by decide, by decide⟩
  have h0 : (loopActions (readChunks (1024 * 1024) data) ev).countP isSpawn = 0 :=
    List.countP_eq_zero.mpr fun a ha => by
      have := (loopActions_actions _ ev a ha).1
      simp [this]
  simp [generate, spawnCount, List.countP_cons, List.countP_append, h0, isSpawn]

/-- Claim C10: the `/thumb` handler returns an empty 404 for every
request path that does not literally end in the suffix `/index.jpg`,
whatever the filesystem contents. -/
theorem thumb_requires_slash_suffix (fs : Fs) (p : String)
    (h : strEndsWith p "/index.jpg" = false) :
    (thumb fs p).status = 404 ∧ (thumb fs p).body = [] := by
  simp [thumb, h, err404]

/-- Witness for C10: a request for a top-level `index.jpg` (no
preceding slash) gets 404 even though the file exists directly under
`BASE_DIR`. -/
theorem thumb_requires_slash_suffix_witness :
    strEndsWith "index.jpg" "/index.jpg" = false
    ∧ fsTop.lookup (resolvePath "index.jpg") = some [9, 9]
    ∧ (thumb fsTop "index.jpg").status = 404
    ∧ (thumb fsTop "index.jpg").body = [] :=
  ⟨by decide, by decide,
   (thumb_requires_slash_suffix fsTop "index.jpg" (by decide)).1,
   (thumb_requires_slash_suffix fsTop "index.jpg" (by decide)).2⟩

/-- Claim C3: for an existing file and a range `bytes=N-M` with both
bounds inside the file length, `/video` returns 206 with exactly
`M - N + 1` bytes starting at offset `N` and a Content-Range header
describing that span. -/
theorem video_range_206 (fs : Fs) (p : String) (content : List Nat) (n m : Nat)
    (hfs : fs.lookup (resolvePath p) = some content)
    (hnm : n ≤ m) (hm : m < content.length) :
    (video fs p (some (n, m))).status = 206
    ∧ (video fs p (some (n, m))).body = (content.drop n).take (m - n + 1)
    ∧ (video fs p (some (n, m))).body.length = m - n + 1
    ∧ (video fs p (some (n, m))).contentRange = some (n, m, content.length) := by
  have hmin : min m (content.length - 1) = m := by omega
  have hlen : ¬ content.length ≤ n := by omega
  refine ⟨?_, ?_, ?_, ?_⟩
  · simp only [video, hfs, serveRange, if_neg hlen, hmin]
  · simp only [video, hfs, serveRange, if_neg hlen, hmin]
  · simp only [video, hfs, serveRange, if_neg hlen, hmin]
    rw [List.length_take, List.length_drop]
    omega
  · simp only [video, hfs, serveRange, if_neg hlen, hmin]

/-- Witness for C3: bytes 1-3 of a five-byte file. -/
theorem video_range_206_witness :
    fsDemo.lookup (resolvePath "a.mp4") = some [0, 1, 2, 3, 4]
    ∧ (1 : Nat) ≤ 3 ∧ 3 < [0, 1, 2, 3, 4].length
    ∧ ((video fsDemo "a.mp4" (some (1, 3))).status = 206
      ∧ (video fsDemo "a.mp4" (some (1, 3))).body
          = (([0, 1, 2, 3, 4] : List Nat).drop 1).take (3 - 1 + 1)
      ∧ (video fsDemo "a.mp4" (some (1, 3))).body.length = 3 - 1 + 1
      ∧ (video fsDemo "a.mp4" (some (1, 3))).contentRange
          = some (1, 3, ([0, 1, 2, 3, 4] : List Nat).length)) :=
  ⟨by decide, by decide, by decide,
   video_range_206 fsDemo "a.mp4" [0, 1, 2, 3, 4] 1 3 (by decide) (by decide) (by decide)⟩

/-- Claim C4: for an existing file and a range whose span lies entirely
beyond the file length, `/video` returns 416 with an empty body. -/
theorem video_range_beyond_416 (fs : Fs) (p : String) (content : List Nat) (n m : Nat)
    (hfs : fs.lookup (resolvePath p) = some content)
    (hnm : n ≤ m) (hn : content.length ≤ n) :
    (video fs p (some (n, m))).status = 416
    ∧ (video fs p (some (n, m))).body = [] := by
  simp [video, hfs, serveRange, hn]

/-- Witness for C4: bytes 9-12 of a five-byte file. -/
theorem video_range_beyond_416_witness :
    fsDemo.lookup (resolvePath "a.mp4") = some [0, 1, 2, 3, 4]
    ∧ (9 : Nat) ≤ 12 ∧ ([0, 1, 2, 3, 4] : List Nat).length ≤ 9
    ∧ ((video fsDemo "a.mp4" (some (9, 12))).status = 416
      ∧ (video fsDemo "a.mp4" (some (9, 12))).body = []) :=
  ⟨by decide, by decide, by decide,
   video_range_beyond_416 fsDemo "a.mp4" [0, 1, 2, 3, 4] 9 12 (by decide) (by decide) (by decide)⟩

/-- Claim C5: for an existing file and no Range header, `/video`
returns 200 with the full byte content and a Content-Length equal to the
file size. -/
theorem video_no_range_200 (fs : Fs) (p : String) (content : List Nat)
    (hfs : fs.lookup (resolvePath p) = some content) :
    (video fs p none).status = 200
    ∧ (video fs p none).body = content
    ∧ (video fs p none).contentLength = some content.length := by
  simp [video, hfs, serveRange]

/-- Witness for C5 on a concrete five-byte file. -/
theorem video_no_range_200_witness :
    fsDemo.lookup (resolvePath "a.mp4") = some [0, 1, 2, 3, 4]
    ∧ ((video fsDemo "a.mp4" none).status = 200
      ∧ (video fsDemo "a.mp4" none).body = [0, 1, 2, 3, 4]
      ∧ (video fsDemo "a.mp4" none).contentLength
          = some ([0, 1, 2, 3, 4] : List Nat).length) :=
  ⟨by decide, video_no_range_200 fsDemo "a.mp4" [0, 1, 2, 3, 4] (by decide)⟩

/-- Claim C9: for an existing file, the `/stream` response carries
content type `video/mp4` and `Accept-Ranges: bytes`, and its body is the
stdout of the encoder yielded chunk by chunk: the yields are exactly the
1 MiB reads, whose concatenation is the whole output without buffering,
every chunk non-empty and at most 1 MiB, and the loop ends on the first
empty read. -/
theorem stream_chunked_output (fs : Fs) (p : String) (content data : List Nat)
    (hfs : fs.lookup (resolvePath p) = some content) :
    (stream fs p data StreamEvent.runToEof).contentType = some "video/mp4"
    ∧ (stream fs p data StreamEvent.runToEof).acceptRanges = true
    ∧ yieldsOf (stream fs p data StreamEvent.runToEof).trace
        = readChunks (1024 * 1024) data
    ∧ (readChunks (1024 * 1024) data).flatten = data
    ∧ (∀ c ∈ readChunks (1024 * 1024) data, c.length ≤ 1024 * 1024 ∧ c ≠ [])
    ∧ (∃ pre, loopActions (readChunks (1024 * 1024) data) StreamEvent.runToEof
        = pre ++ [Action.readStdout 0]) := by
  refine ⟨by simp [stream, hfs], by simp [stream, hfs], ?_,
    readChunks_join (1024 * 1024) (by norm_num) data,
    readChunks_mem (1024 * 1024) (by norm_num) data,
    ioEof_ends_empty_read _⟩
  have htrace : (stream fs p data StreamEvent.runToEof).trace
      = Action.spawn :: (ioEof (readChunks (1024 * 1024) data) ++ [Action.terminate]) := by
    simp [stream, hfs, generate, loopActions]
  rw [htrace]
  have hy := yieldsOf_ioEof (readChunks (1024 * 1024) data)
  simp only [yieldsOf, List.filterMap_cons, List.filterMap_append, yieldAct] at hy ⊢
  simp [hy]

/-- Witness for C9 on a concrete file and a three-byte encoder
output. -/
theorem stream_chunked_output_witness :
    fsDemo.lookup (resolvePath "a.mp4") = some [0, 1, 2, 3, 4]
    ∧ ((stream fsDemo "a.mp4" [1, 2, 3] StreamEvent.runToEof).contentType = some "video/mp4"
      ∧ (stream fsDemo "a.mp4" [1, 2, 3] StreamEvent.runToEof).acceptRanges = true
      ∧ yieldsOf (stream fsDemo "a.mp4" [1, 2, 3] StreamEvent.runToEof).trace
          = readChunks (1024 * 1024) [1, 2, 3]
      ∧ (readChunks (1024 * 1024) [1, 2, 3]).flatten = [1, 2, 3]
      ∧ (∀ c ∈ readChunks (1024 * 1024) [1, 2, 3], c.length ≤ 1024 * 1024 ∧ c ≠ [])
      ∧ (∃ pre, loopActions (readChunks (1024 * 1024) [1, 2, 3]) StreamEvent.runToEof
          = pre ++ [Action.readStdout 0])) :=
  ⟨by decide, stream_chunked_output fsDemo "a.mp4" [0, 1, 2, 3, 4] [1, 2, 3] (by decide)⟩

end TvViewer
